import Mathlib

/-!
Shallow embedding of `src/ninstaller.js` (the nInstaller incremental
resource-synchronization client) and verification of its specified
properties.

The JavaScript source is embedded as executable Lean definitions:

* JS objects used as string-keyed maps become association lists
  (`jsSetProp` / `jsGetProp` model JS property assignment and lookup);
* the Web SQL database becomes an explicit `Db` state value;
* fallible JS code (expressions that can throw `TypeError`, transaction
  error callbacks, XHR requests that never fire `onload`) becomes
  `Except` values or explicit outcome types recording whether the
  continuation was ever invoked.

Field names (`path`, `md5`, `time`, `content`, `js`, `resources`) follow
the source. The spec names `contentHash` and `timestamp` correspond to
the source fields `md5` and `time`.
-/

set_option autoImplicit false

namespace NInstaller

/-- A resource descriptor, one entry of `manifest.js.resources`.
`content` is absent (`none`) on descriptors coming from a manifest and is
populated by `_fetchResources` (source line 172: `res.content = content`). -/
structure Resource where
  path : String
  md5 : String
  time : String
  content : Option String := none
deriving DecidableEq, Repr

/-- The `js` sub-object of a manifest: `manifest.js.resources` is the
ordered descriptor list (source lines 134 and 137). -/
structure ManifestJs where
  resources : List Resource
deriving DecidableEq, Repr

/-- A manifest, as produced by `JSON.parse` of the manifest document.
Per the wire format (spec section 6) and the accesses at source lines 134
and 137, the parsed object carries its descriptor list under
`js.resources`. -/
structure Manifest where
  js : ManifestJs
deriving DecidableEq, Repr

/-- A JS runtime exception. The only exceptions the embedded code can
raise are `TypeError`s from dereferencing `undefined`. -/
inductive JsError where
  | typeError
deriving DecidableEq, Repr

/-- Equality of `Except` values is decidable when it is on both sides;
this lets concrete runs of the fallible embedded code be checked by
evaluation. -/
instance instDecidableEqExcept {ε α : Type} [DecidableEq ε] [DecidableEq α] :
    DecidableEq (Except ε α) := fun x y =>
  match x, y with
  | .ok a, .ok b =>
    if h : a = b then .isTrue (by rw [h]) else .isFalse (fun hc => h (Except.ok.inj hc))
  | .error a, .error b =>
    if h : a = b then .isTrue (by rw [h]) else .isFalse (fun hc => h (Except.error.inj hc))
  | .ok _, .error _ => .isFalse (fun hc => Except.noConfusion hc)
  | .error _, .ok _ => .isFalse (fun hc => Except.noConfusion hc)

/-- JS property assignment `result[k] = v` on an object modelled as an
association list: an existing binding for `k` is overwritten in place,
a new key is appended. -/
def jsSetProp {α : Type} : List (String × α) → String → α → List (String × α)
  | [], k, v => [(k, v)]
  | (k0, v0) :: rest, k, v =>
    if k0 = k then (k, v) :: rest else (k0, v0) :: jsSetProp rest k v

/-- JS property lookup `m[k]`: `some v` when the property is present,
`none` standing for `undefined`. -/
def jsGetProp {α : Type} : List (String × α) → String → Option α
  | [], _ => none
  | (k0, v0) :: rest, k => if k0 = k then some v0 else jsGetProp rest k

/-- Source lines 43-50, `arrayToMap(array, key)`: convert an array of
objects to a map keyed by the value each object holds at `key`. The loop
runs left to right, so a later element with the same key value overwrites
an earlier one. The dynamic property access `val[key]` is embedded as the
function `key : α → String`. -/
def arrayToMap {α : Type} (array : List α) (key : α → String) : List (String × α) :=
  array.foldl (fun result val => jsSetProp result (key val) val) []

/-- The last element of the list whose key value is `k` (later elements
take precedence), the reference value for `arrayToMap` lookups. -/
def lastWithKey {α : Type} (key : α → String) (k : String) : List α → Option α
  | [] => none
  | a :: rest =>
    match lastWithKey key k rest with
    | some b => some b
    | none => if key a = k then some a else none

/-- JS property access `newManifest.js.resouces` at source line 138 (note
the spelling). The parsed manifest object has a `resources` property
(wire format, spec section 6; accesses at lines 134 and 137) but no
`resouces` property, so this access yields `undefined`. -/
def jsResouces (_m : Manifest) : Option (List Resource) := none

/-- The loop of `_calcNewResource`, source lines 139-145: for each new
descriptor, look its `path` up in the map built from the current
manifest, and keep it when the `md5` values differ. When the path has no
entry in the map, `currentResourcesMap[newResource.path]` is `undefined`
and `currentResource.md5` (line 142) throws a `TypeError`; a thrown
exception aborts the whole computation, so nothing is returned. -/
def calcLoop (currentResourcesMap : List (String × Resource)) :
    List Resource → Except JsError (List Resource)
  | [] => .ok []
  | newResource :: rest =>
    match jsGetProp currentResourcesMap newResource.path with
    | none => .error .typeError
    | some currentResource =>
      if newResource.md5 ≠ currentResource.md5 then
        match calcLoop currentResourcesMap rest with
        | .ok resources => .ok (newResource :: resources)
        | .error e => .error e
      else
        calcLoop currentResourcesMap rest

/-- Source lines 129-149, `_calcNewResource`: diff the current manifest
against the new one.
* No current manifest (line 133): `[].concat(newManifest.js.resources)`,
  a copy of the incoming descriptor list in order.
* Otherwise (lines 136-145): build `currentResourcesMap` from the current
  manifest keyed by `path`, then iterate over
  `newManifest.js.resouces` — a property that does not exist on the
  parsed manifest — so `newResources` is `undefined` and
  `newResources.length` (line 139) throws a `TypeError` before the loop
  body runs. -/
def calcNewResource (currentManifest : Option Manifest) (newManifest : Manifest) :
    Except JsError (List Resource) :=
  match currentManifest with
  | none => .ok newManifest.js.resources
  | some cur =>
    let currentResourcesMap := arrayToMap cur.js.resources (fun r => r.path)
    match jsResouces newManifest with
    | none => .error .typeError
    | some newResources => calcLoop currentResourcesMap newResources

/-- Outcome of `_fetchResources` (source lines 157-179). The source
installs only an `onload` handler on the XHR; when a retrieval fails,
no handler runs, so neither the callback nor any error path is taken:
the computation stalls. `completed rs` means the callback was invoked
with `rs`. -/
inductive FetchOutcome where
  | completed (resources : List Resource)
  | stalled
deriving DecidableEq, Repr

/-- Source lines 157-179, `_fetchResources`: sequentially GET each
descriptor `path` through `oracle` (the network: `some body` on success,
`none` on failure). On success the body is attached in place as
`res.content` and the next fetch starts; when the index reaches the end
the callback receives the same array, in order. On any failure nothing
further happens (no `onerror` handler exists). -/
def fetchResources (oracle : String → Option String) :
    List Resource → FetchOutcome
  | [] => .completed []
  | res :: rest =>
    match oracle res.path with
    | none => .stalled
    | some body =>
      match fetchResources oracle rest with
      | .completed resources => .completed ({ res with content := some body } :: resources)
      | .stalled => .stalled

/-- One row of the `manifest` table, holding a TEXT column that
`_loadCurrentManifest` feeds to `JSON.parse` (source line 113): `good m`
is a row whose text parses to the manifest `m`, `corrupt` is a row whose
text makes `JSON.parse` throw. -/
inductive ManifestRow where
  | good (m : Manifest)
  | corrupt
deriving DecidableEq, Repr

/-- The Web SQL database `ninstaller`: the `manifest` table read by
`_loadCurrentManifest` (line 108) and the `js` table written by
`_saveResources` (line 192), whose PRIMARY KEY is `path`. -/
structure Db where
  manifestRows : List ManifestRow
  jsRows : List (String × Resource)
deriving DecidableEq, Repr

/-- A database with no rows in either table: the state before any sync
has ever run. -/
def emptyDb : Db := { manifestRows := [], jsRows := [] }

/-- Outcome of `_loadCurrentManifest` (source lines 101-122).
`done cur` means the continuation `callback` was invoked, with
`_currentManifest` set to `cur`; `errorLogged` means the transaction
error handler ran — it only calls `console.error` (lines 119-121) and
never invokes `callback`, so the pipeline stalls. -/
inductive LoadOutcome where
  | done (currentManifest : Option Manifest)
  | errorLogged
deriving DecidableEq, Repr

/-- Source lines 101-122, `_loadCurrentManifest`: SELECT from the
`manifest` table. Zero rows: `callback()` with `_currentManifest` left
null. Otherwise `JSON.parse(rows.item(0).manifest)`: a good first row
sets `_currentManifest` and calls back; a corrupt first row makes
`JSON.parse` throw inside the statement callback, which per Web SQL
fails the transaction and runs the transaction error callback — which
only logs. -/
def loadCurrentManifest (db : Db) : LoadOutcome :=
  match db.manifestRows with
  | [] => .done none
  | row :: _ =>
    match row with
    | .good m => .done (some m)
    | .corrupt => .errorLogged

/-- Source lines 187-206, `_saveResources`: one transaction that creates
the `js` table if needed and runs
`INSERT OR REPLACE INTO js (path, md5, time, content)` for each resource
in order — an upsert keyed by the `path` PRIMARY KEY. No statement in
the transaction touches the `manifest` table. -/
def saveResources (db : Db) (resources : List Resource) : Db :=
  { db with jsRows := resources.foldl (fun tbl res => jsSetProp tbl res.path res) db.jsRows }

/-- Outcome of a whole sync run started by `init` (source lines 62-74).
`complete db` means the chain reached `_complete`, which invokes the
caller-supplied callback (once, source lines 213-215), leaving the
database in state `db`; `stalled` means some step never invoked its
continuation (or threw), so no later step ran. -/
inductive SyncOutcome where
  | complete (db : Db)
  | stalled
deriving DecidableEq, Repr

/-- Modelled from the spec: `CallbackSeq`, the sequential callback chain
used by `init` (source lines 64-73), is repository code not present in
this file. Per spec section 9, the source is "sequential callback
chaining (manifest fetch, local load, diff, resource fetch, persist,
notify)": each registered step runs only when the previous step invokes
its continuation, and the value a step passes to its continuation is fed
to the next step. `runInit` composes the steps defined above in the
order `init` registers them, with a successfully fetched and parsed new
manifest (`_fetchNewManifest`) given as `newManifest` and the network
given as `oracle`. A step that never calls its continuation, or whose
synchronous body throws, leaves the rest of the chain unexecuted. -/
def runInit (newManifest : Manifest) (db : Db) (oracle : String → Option String) :
    SyncOutcome :=
  match loadCurrentManifest db with
  | .errorLogged => .stalled
  | .done currentManifest =>
    match calcNewResource currentManifest newManifest with
    | .error _ => .stalled
    | .ok changed =>
      match fetchResources oracle changed with
      | .stalled => .stalled
      | .completed fetched => .complete (saveResources db fetched)

/-- How many times the caller-supplied callback passed to `init` is
invoked during a run: the only call site is `_complete` (source line
214), reached exactly on the `complete` outcome; a stalled run never
reaches it. -/
def callbackCount : SyncOutcome → Nat
  | .complete _ => 1
  | .stalled => 0

/-! Concrete inputs used to evaluate the embedded code. -/

/-- A one-resource manifest used as the current manifest for C1. -/
def c1current : Manifest := { js := { resources := [{ path := "a.js", md5 := "h1", time := "t1" }] } }

/-- The descriptor of C1: present in the incoming manifest, no entry with
its path in the current manifest. -/
def c1new : Resource := { path := "b.js", md5 := "h2", time := "t2" }

/-- The incoming manifest of C1, carrying only the new descriptor. -/
def c1incoming : Manifest := { js := { resources := [c1new] } }

/-- The new manifest of the C2 sync run. -/
def c2manifest : Manifest := { js := { resources := [{ path := "a.js", md5 := "h1", time := "t1" }] } }

/-- The resource list of `c2manifest` after a successful fetch, as handed
to `_saveResources`. -/
def c2fetched : List Resource :=
  [{ path := "a.js", md5 := "h1", time := "t1", content := some "bodyA" }]

/-- A manifest compared with itself in C3. -/
def c3manifest : Manifest := { js := { resources := [{ path := "a.js", md5 := "h1", time := "t1" }] } }

/-- Two changed descriptors for C4. -/
def c4resources : List Resource :=
  [{ path := "a.js", md5 := "h1", time := "t1" }, { path := "b.js", md5 := "h2", time := "t2" }]

/-- A network where the first retrieval succeeds and the second fails. -/
def c4oracle : String → Option String := fun p => if p = "a.js" then some "bodyA" else none

/-- A database whose stored manifest record is corrupt. -/
def c5corruptDb : Db := { manifestRows := [ManifestRow.corrupt], jsRows := [] }

/-- The new manifest of the C6 runs. -/
def c6manifest : Manifest := { js := { resources := [{ path := "a.js", md5 := "h1", time := "t1" }] } }

/-- A network where every retrieval succeeds, for C6. -/
def c6oracle : String → Option String := fun _ => some "body"

/-- A database whose stored manifest record is corrupt, making the C6 run
fail during `_loadCurrentManifest`. -/
def c6failDb : Db := { manifestRows := [ManifestRow.corrupt], jsRows := [] }

/-- A concrete incoming manifest for the C7 witness. -/
def c7manifest : Manifest :=
  { js := { resources := [{ path := "a.js", md5 := "h1", time := "t1" },
                          { path := "b.js", md5 := "h2", time := "t2" }] } }

/-- The unchanged descriptor of C8: same path and md5 in both manifests. -/
def c8res : Resource := { path := "a.js", md5 := "h1", time := "t1" }

/-- The current manifest of C8, containing the unchanged descriptor. -/
def c8current : Manifest :=
  { js := { resources := [c8res, { path := "b.js", md5 := "h2", time := "t2" }] } }

/-- The incoming manifest of C8: the unchanged descriptor plus a changed
one. -/
def c8incoming : Manifest :=
  { js := { resources := [c8res, { path := "b.js", md5 := "h3", time := "t3" }] } }

/-- Concrete descriptor list for the C9 witness. -/
def c9resources : List Resource :=
  [{ path := "a.js", md5 := "h1", time := "t1" }, { path := "b.js", md5 := "h2", time := "t2" }]

/-- A network where both C9 retrievals succeed with distinct bodies. -/
def c9oracle : String → Option String := fun p => if p = "a.js" then some "bodyA" else some "bodyB"

/-- Concrete array for the C10 witness: pairwise distinct paths. -/
def c10array : List Resource :=
  [{ path := "a.js", md5 := "h1", time := "t1" }, { path := "b.js", md5 := "h2", time := "t2" }]

/-! Supporting lemmas about the JS object model. -/

/-- Looking a key up after a JS property assignment: the assigned key
yields the assigned value, any other key is unaffected. -/
theorem jsGetProp_jsSetProp {α : Type} (m : List (String × α)) (k0 k : String) (v : α) :
    jsGetProp (jsSetProp m k0 v) k = if k0 = k then some v else jsGetProp m k := by
  induction m with
  | nil => simp [jsSetProp, jsGetProp]
  | cons hd tl ih =>
    obtain ⟨k1, v1⟩ := hd
    by_cases h1 : k1 = k0
    · subst h1
      by_cases h2 : k1 = k
      · subst h2; simp [jsSetProp, jsGetProp]
      · simp [jsSetProp, jsGetProp, h2]
    · by_cases h2 : k1 = k
      · subst h2
        have : k0 ≠ k1 := fun h => h1 h.symm
        simp [jsSetProp, jsGetProp, h1, this]
      · simp [jsSetProp, jsGetProp, h1, h2, ih]

/-- Folding JS property assignments over a list: the result of a lookup
is the last list element carrying the key, falling back to the initial
object. -/
theorem jsGetProp_foldl_set {α : Type} (key : α → String) (l : List α)
    (acc : List (String × α)) (k : String) :
    jsGetProp (l.foldl (fun result val => jsSetProp result (key val) val) acc) k =
      match lastWithKey key k l with
      | some b => some b
      | none => jsGetProp acc k := by
  induction l generalizing acc with
  | nil => simp [lastWithKey]
  | cons a rest ih =>
    rw [List.foldl_cons, ih]
    cases h : lastWithKey key k rest with
    | some b => simp [lastWithKey, h]
    | none =>
      by_cases hk : key a = k
      · simp [lastWithKey, h, hk, jsGetProp_jsSetProp]
      · simp [lastWithKey, h, hk, jsGetProp_jsSetProp]

/-- Lookup in `arrayToMap` returns the last array element carrying the
key, `none` when no element carries it. -/
theorem arrayToMap_lastWithKey {α : Type} (array : List α) (key : α → String) (k : String) :
    jsGetProp (arrayToMap array key) k = lastWithKey key k array := by
  rw [arrayToMap, jsGetProp_foldl_set]
  cases lastWithKey key k array <;> simp [jsGetProp]

/-- A key carried by no element of the list is found nowhere. -/
theorem lastWithKey_of_not_mem {α : Type} (key : α → String) (k : String) (l : List α)
    (h : ∀ x ∈ l, key x ≠ k) : lastWithKey key k l = none := by
  induction l with
  | nil => rfl
  | cons a rest ih =>
    rw [lastWithKey, ih (fun x hx => h x (List.mem_cons_of_mem a hx))]
    simp [h a (List.mem_cons_self a rest)]

/-- Under pairwise-distinct key values, every element is found under its
own key value. -/
theorem lastWithKey_self {α : Type} (key : α → String) (l : List α)
    (hdist : l.Pairwise (fun x y => key x ≠ key y)) (a : α) (ha : a ∈ l) :
    lastWithKey key (key a) l = some a := by
  induction l with
  | nil => cases ha
  | cons b rest ih =>
    rw [List.pairwise_cons] at hdist
    rcases List.mem_cons.mp ha with rfl | hmem
    · rw [lastWithKey,
        lastWithKey_of_not_mem key (key a) rest (fun x hx => (hdist.1 x hx).symm)]
      simp
    · rw [lastWithKey, ih hdist.2 hmem]

/-! Claim theorems. -/

/-- C1: the claim says a descriptor present in the incoming manifest but
absent from the current one is included in the diff output, without
being skipped and without faulting. The code faults instead: with a
non-null current manifest, `_calcNewResource` reads the nonexistent
property `newManifest.js.resouces` (line 138) and throws a `TypeError`
at `newResources.length` (line 139); and even under the intended
spelling, the lookup of a path absent from `currentResourcesMap` yields
`undefined`, so `currentResource.md5` (line 142) throws. Here `c1new`
lies in the incoming manifest, its path has no entry in the current
manifest, and the diff computation raises a `TypeError` instead of
producing an output containing `c1new`. -/
theorem c1_new_descriptor_faults :
    c1new ∈ c1incoming.js.resources ∧
    jsGetProp (arrayToMap c1current.js.resources (fun r => r.path)) c1new.path = none ∧
    calcNewResource (some c1current) c1incoming = .error .typeError := by decide

/-- C2: the claim says a successful `_saveResources` commit persists the
new manifest as the new current manifest, visible to the next
`_loadCurrentManifest`. The transaction of `_saveResources` (lines
191-197) only upserts rows of the `js` table and never writes the
`manifest` table, so the stored manifest is unchanged by every commit:
after committing the fetched resources of `c2manifest` into an empty
store, loading the current manifest still yields no manifest rather
than `c2manifest`. -/
theorem c2_manifest_not_persisted :
    (∀ (db : Db) (resources : List Resource),
      (saveResources db resources).manifestRows = db.manifestRows) ∧
    loadCurrentManifest (saveResources emptyDb c2fetched) = .done none ∧
    LoadOutcome.done (some c2manifest) ≠ .done none :=
  ⟨fun _ _ => rfl, by decide, by decide⟩

/-- C3: the claim says the diff of two manifests with identical content
is empty, so a re-run with an unchanged remote manifest commits
trivially. With a non-null current manifest the code instead throws a
`TypeError` (the `newManifest.js.resouces` misspelling at line 138
yields `undefined`, and `undefined.length` faults at line 139): diffing
`c3manifest` against itself raises the error and never returns the
empty list. -/
theorem c3_identical_manifests_fault :
    calcNewResource (some c3manifest) c3manifest = .error .typeError ∧
    calcNewResource (some c3manifest) c3manifest ≠ .ok [] := by decide

/-- C4: the claim says that when retrieval of any single resource fails,
`_fetchResources` fails with a `FetchError` identifying the failed path.
The code installs only an `onload` handler on its XHR (lines 170-175)
and has no error path at all: when the retrieval of `b.js` fails, no
handler fires, the callback is never invoked and no error value exists
to carry the path — the operation silently stalls. (The other half of
the claim holds: no partial result reaches the caller, because the
callback only runs after the last resource.) -/
theorem c4_failed_fetch_unreported :
    c4oracle "b.js" = none ∧
    fetchResources c4oracle c4resources = .stalled ∧
    (∀ rs : List Resource, FetchOutcome.stalled ≠ .completed rs) :=
  ⟨by decide, by decide, fun _ h => FetchOutcome.noConfusion h⟩

/-- C5: the claim says `_loadCurrentManifest` yields `None` exactly when
no manifest was ever persisted, and a corrupt stored record yields a
distinct `StoreError` outcome. The first half holds (zero rows invoke
the callback with `_currentManifest` still null), but a corrupt record
makes `JSON.parse` (line 113) throw, failing the transaction; the error
handler (lines 119-121) only calls `console.error` and never invokes the
continuation, so no `StoreError` outcome is produced — the run stalls
with the failure unreported. -/
theorem c5_corrupt_row_unreported :
    loadCurrentManifest emptyDb = .done none ∧
    loadCurrentManifest c5corruptDb = .errorLogged ∧
    LoadOutcome.errorLogged ≠ .done none := by decide

/-- C6: the claim says every sync run, Complete or Failed, invokes the
caller-supplied completion callback exactly once. A successful run does
invoke it exactly once (via `_complete`, line 214), but a failing run
invokes it zero times: when `_loadCurrentManifest` hits a store error it
only logs (lines 119-121) and never calls its continuation, so no later
step of the chain — `_complete` included — ever runs. -/
theorem c6_failed_run_no_notification :
    runInit c6manifest c6failDb c6oracle = .stalled ∧
    callbackCount (runInit c6manifest c6failDb c6oracle) = 0 ∧
    callbackCount (runInit c6manifest emptyDb c6oracle) = 1 := by decide

/-- C7: when the current manifest is null, `_calcNewResource` (line 134)
returns `[].concat(newManifest.js.resources)`: exactly the incoming
manifest descriptor list, in order — a full install. -/
theorem c7_none_full_install (newManifest : Manifest) :
    calcNewResource none newManifest = .ok newManifest.js.resources := rfl

/-- Witness for C7 at a concrete two-resource manifest. -/
theorem c7_none_full_install_witness :
    calcNewResource none c7manifest = .ok c7manifest.js.resources :=
  c7_none_full_install c7manifest

/-- C8: the claim says a descriptor whose path is present in the current
manifest with an equal md5 is absent from the diff output, and the
output preserves the order of the incoming list. With a non-null
current manifest the code never produces an output at all: the
`newManifest.js.resouces` misspelling (line 138) makes it throw a
`TypeError`. Here `c8res` lies in the incoming manifest and is present
unchanged in the current one, yet the computation raises the error
instead of returning a sequence omitting `c8res`. -/
theorem c8_unchanged_descriptor_faults :
    c8res ∈ c8incoming.js.resources ∧
    jsGetProp (arrayToMap c8current.js.resources (fun r => r.path)) c8res.path = some c8res ∧
    calcNewResource (some c8current) c8incoming = .error .typeError := by decide

/-- C9: when every retrieval succeeds, `_fetchResources` passes to its
callback the same descriptor sequence, in the same order, where each
descriptor has gained the fetched body as its `content` field and its
other fields (`path`, `md5`, `time`) are untouched — exactly the
element-wise content update of the input list. -/
theorem c9_fetch_populates_content_in_order (oracle : String → Option String)
    (resources : List Resource) (h : ∀ r ∈ resources, (oracle r.path).isSome) :
    fetchResources oracle resources =
      .completed (resources.map fun r => { r with content := oracle r.path }) := by
  induction resources with
  | nil => rfl
  | cons res rest ih =>
    obtain ⟨body, hbody⟩ := Option.isSome_iff_exists.mp (h res (List.mem_cons_self res rest))
    have hrest := ih (fun r hr => h r (List.mem_cons_of_mem res hr))
    simp [fetchResources, hbody, hrest]

/-- Witness for C9: both concrete retrievals succeed and the callback
receives the two descriptors in order with their bodies attached. -/
theorem c9_fetch_witness :
    fetchResources c9oracle c9resources =
      .completed (c9resources.map fun r => { r with content := c9oracle r.path }) :=
  c9_fetch_populates_content_in_order c9oracle c9resources (by decide)

/-- C10: `arrayToMap` maps each key value to the last array element
carrying it (`lastWithKey`), and when the key values are pairwise
distinct — the manifest unique-path invariant — every element is
retrievable from the result under its own key value. -/
theorem c10_arrayToMap_last_wins {α : Type} (array : List α) (key : α → String) (k : String) :
    jsGetProp (arrayToMap array key) k = lastWithKey key k array ∧
    (array.Pairwise (fun x y => key x ≠ key y) →
      ∀ a ∈ array, jsGetProp (arrayToMap array key) (key a) = some a) :=
  ⟨arrayToMap_lastWithKey array key k,
   fun hdist a ha =>
     (arrayToMap_lastWithKey array key (key a)).trans (lastWithKey_self key array hdist a ha)⟩

/-- Witness for C10 on a concrete two-element array with distinct paths,
discharging the pairwise-distinctness hypothesis by evaluation. -/
theorem c10_arrayToMap_witness :
    jsGetProp (arrayToMap c10array (fun r => r.path)) "a.js" =
      lastWithKey (fun r => r.path) "a.js" c10array ∧
    (∀ a ∈ c10array, jsGetProp (arrayToMap c10array (fun r => r.path)) a.path = some a) :=
  ⟨(c10_arrayToMap_last_wins c10array (fun r => r.path) "a.js").1,
   (c10_arrayToMap_last_wins c10array (fun r => r.path) "a.js").2 (by decide)⟩

end NInstaller
